import Mathlib

/-!
# Verification of the aux-machine-performance signal pipeline

Shallow embedding of `src/python-daemon/signal_recorder.py` (and the
config loader shared with `signal_daemon.py`).  Python dicts keyed by
machine-id strings are modelled as association lists (insertion order,
replace-in-place on reassignment, like CPython dicts); Python `float`
is modelled as `ℚ`; Python `int` as `Int` (or `Nat` for the cycle
counters, which only ever hold non-negative values); fallible
operations return `Except`/explicit failure flags; every `logger.X`
call is recorded as a `LogLevel` entry in an output list.
-/

namespace SignalRecorder

/-- Python dict lookup `d.get(k)` / `d[k]` on a string-keyed dict,
modelled over an association list. -/
def alookup {β : Type} : List (String × β) → String → Option β
  | [], _ => none
  | (k, v) :: t, a => if k = a then some v else alookup t a

/-- Python dict assignment `d[k] = v`: replaces the value in place if the
key is present (CPython keeps the original insertion position), otherwise
appends the new key at the end. -/
def aset {β : Type} : List (String × β) → String → β → List (String × β)
  | [], k, v => [(k, v)]
  | (k', v') :: t, k, v => if k' = k then (k, v) :: t else (k', v') :: aset t k v

/-- `startsWithL s p`: the char list `p` is a prefix of `s`
(`str.startswith(p)` in Python). -/
def startsWithL : List Char → List Char → Bool
  | _, [] => true
  | [], _ :: _ => false
  | c :: s, d :: p => c == d && startsWithL s p

/-- Python `p in s` on strings: substring containment. -/
def containsSub : List Char → List Char → Bool
  | [], p => p.isEmpty
  | c :: t, p => startsWithL (c :: t) p || containsSub t p

/-- The chars before the first `'.'`. -/
def takeUntilDot : List Char → List Char
  | [] => []
  | c :: t => if c = '.' then [] else c :: takeUntilDot t

/-- The chars after the first `'.'` (everything, when there is no dot). -/
def afterFirstDot : List Char → List Char
  | [] => []
  | c :: t => if c = '.' then t else afterFirstDot t

/-- Python `int(s)` on a plain digit string (the pin indices handled by
the daemon); `none` models the `ValueError` on anything else. -/
def digitsToNat? (cs : List Char) : Option Nat :=
  if cs = [] then none
  else
    cs.foldl
      (fun acc c =>
        match acc with
        | none => none
        | some n => if c.isDigit then some (n * 10 + (c.toNat - 48)) else none)
      (some 0)

/-- Log levels of the `logging` calls made by the daemon. -/
inductive LogLevel where
  | debug
  | info
  | warning
  | error
deriving DecidableEq, Repr

/-!
## SignalProcessor (`signal_recorder.py`, lines 266–310)

`__init__` creates three empty dicts: `power_readings`, `cycle_counts`,
`last_cycle_state`.
-/

structure SignalProcessor where
  power_readings : List (String × List ℚ)
  cycle_counts : List (String × Nat)
  last_cycle_state : List (String × Bool)
deriving DecidableEq, Repr

/-- `SignalProcessor.__init__`: all three dicts start empty. -/
def signalProcessorInit : SignalProcessor := ⟨[], [], []⟩

/-- `SignalProcessor.process_power_signal` (lines 274–283): append the
reading to the machine's window (creating an empty window first if the
machine is unseen), then keep only the last 60 entries (`[-60:]`). -/
def process_power_signal (p : SignalProcessor) (machine_id : String)
    (power_value : ℚ) : SignalProcessor :=
  let readings := (alookup p.power_readings machine_id).getD []
  let readings := readings ++ [power_value]
  let readings :=
    if readings.length > 60 then readings.drop (readings.length - 60) else readings
  { p with power_readings := aset p.power_readings machine_id readings }

/-- `SignalProcessor.process_cycle_signal` (lines 285–296).  Note: the
initialisation branch keys on membership in `cycle_counts`, so after
`reset_hourly_counters` clears that dict, the next call re-initialises
`last_cycle_state[machine_id]` to `False` as well. -/
def process_cycle_signal (p : SignalProcessor) (machine_id : String)
    (cycle_signal : Bool) : SignalProcessor :=
  let p1 :=
    if (alookup p.cycle_counts machine_id).isNone then
      { p with cycle_counts := aset p.cycle_counts machine_id 0,
               last_cycle_state := aset p.last_cycle_state machine_id false }
    else p
  let p2 :=
    if cycle_signal && !((alookup p1.last_cycle_state machine_id).getD false) then
      { p1 with cycle_counts := aset p1.cycle_counts machine_id ((alookup p1.cycle_counts machine_id).getD 0 + 1) }
    else p1
  { p2 with last_cycle_state := aset p2.last_cycle_state machine_id cycle_signal }

/-- `SignalProcessor.get_hourly_production` (lines 298–300):
`self.cycle_counts.get(machine_id, 0)`. -/
def get_hourly_production (p : SignalProcessor) (machine_id : String) : Nat :=
  (alookup p.cycle_counts machine_id).getD 0

/-- `SignalProcessor.reset_hourly_counters` (lines 302–305):
`self.cycle_counts.clear()` — the other two dicts are untouched. -/
def reset_hourly_counters (p : SignalProcessor) : SignalProcessor :=
  { p with cycle_counts := [] }

/-- `SignalProcessor.get_average_power` (lines 307–310):
`sum(readings) / len(readings) if readings else 0.0`. -/
def get_average_power (p : SignalProcessor) (machine_id : String) : ℚ :=
  let readings := (alookup p.power_readings machine_id).getD []
  if readings ≠ [] then readings.sum / (readings.length : ℚ) else 0

/-- Feeding a whole sequence of boolean cycle levels for one machine. -/
def observe_list (p : SignalProcessor) (m : String) (levels : List Bool) :
    SignalProcessor :=
  levels.foldl (fun q l => process_cycle_signal q m l) p

/-- Feeding a whole sequence of power readings for one machine. -/
def observe_power_list (p : SignalProcessor) (m : String) (vs : List ℚ) :
    SignalProcessor :=
  vs.foldl (fun q v => process_power_signal q m v) p

/-- Specification-side count: the number of `false → true` transitions in
a level sequence, given the level observed just before it. -/
def risingEdges : Bool → List Bool → Nat
  | _, [] => 0
  | prev, l :: t => (if l && !prev then 1 else 0) + risingEdges l t

/-- The power window currently stored for a machine (empty when unseen). -/
def power_window (p : SignalProcessor) (m : String) : List ℚ :=
  (alookup p.power_readings m).getD []

/-- One step of the window evolution performed by `process_power_signal`,
as a pure list operation. -/
def stepWin (w : List ℚ) (v : ℚ) : List ℚ :=
  let w' := w ++ [v]
  if w'.length > 60 then w'.drop (w'.length - 60) else w'

/-!
## ProductionRecords store (`DatabaseManager.update_production_record`, lines 209–264)

A record's `startTime` is always created as `date hour:00:00`, and the
lookup query matches `startTime ∈ [date hour:00:00, date hour:59:59)`;
since every stored `startTime` has minutes/seconds zero, bucket lookup is
exactly equality of `(machineId, date, hour)`.  `strptime` with `%H`
accepts exactly hours 00–23 (the daemon passes `datetime.now().hour`),
so the hour is modelled as `Fin 24`.  `datetime.now()` timestamps are a
`Nat` parameter `now`.
-/

structure HourlyEntry where
  hour : Fin 24
  unitsProduced : Int
  defectiveUnits : Int
  status : String
deriving DecidableEq, Repr

structure ProductionRecord where
  machineId : String
  unitsProduced : Int
  defectiveUnits : Int
  startDate : String
  startHour : Fin 24
  hourlyData : List HourlyEntry
  createdAt : Nat
  updatedAt : Nat
deriving DecidableEq, Repr

/-- The `find_one` query of lines 214–223: same machine and a `startTime`
inside the hour bucket. -/
def bucketMatch (machine_id date : String) (hour : Fin 24)
    (r : ProductionRecord) : Bool :=
  decide (r.machineId = machine_id ∧ r.startDate = date ∧ r.startHour = hour)

/-- `update_one` on the `_id` of the record returned by `find_one`:
replace the first record matching the query. -/
def updateFirst (p : ProductionRecord → Bool) (f : ProductionRecord → ProductionRecord) :
    List ProductionRecord → List ProductionRecord
  | [] => []
  | r :: rs => if p r then f r :: rs else r :: updateFirst p f rs

/-- The `$set`/`$push` update of lines 227–243: overwrite `unitsProduced`,
bump `updatedAt`, append one entry to `hourlyData`. -/
def applyRollupUpdate (hour : Fin 24) (units_produced : Int) (now : Nat)
    (r : ProductionRecord) : ProductionRecord :=
  { r with unitsProduced := units_produced, updatedAt := now,
           hourlyData := r.hourlyData ++ [⟨hour, units_produced, 0, "running"⟩] }

/-- The `insert_one` document of lines 246–261. -/
def newProductionRecord (machine_id : String) (hour : Fin 24) (date : String)
    (units_produced : Int) (now : Nat) : ProductionRecord :=
  { machineId := machine_id, unitsProduced := units_produced, defectiveUnits := 0,
    startDate := date, startHour := hour,
    hourlyData := [⟨hour, units_produced, 0, "running"⟩],
    createdAt := now, updatedAt := now }

/-- `DatabaseManager.update_production_record` (success path, lines 209–261).
Note there is no guard on `units_produced` here: a missing record is
created unconditionally, whatever the value. -/
def update_production_record (store : List ProductionRecord) (machine_id : String)
    (hour : Fin 24) (date : String) (units_produced : Int) (now : Nat) :
    List ProductionRecord :=
  match store.find? (bucketMatch machine_id date hour) with
  | some _ =>
      updateFirst (bucketMatch machine_id date hour)
        (applyRollupUpdate hour units_produced now) store
  | none => store ++ [newProductionRecord machine_id hour date units_produced now]

/-- The full call as the caller sees it (lines 209–264): the whole body is
wrapped in `try/except Exception`, the handler does `logger.error` and the
function has no `return` statement — so the caller receives `None` whether
the store operation succeeded or raised.  `storeFail` says whether the
store raised; the third component is the value returned to the caller
(`none` models Python's `None`; a reported failure would be `some msg`). -/
def update_production_record_call (storeFail : Bool) (store : List ProductionRecord)
    (machine_id : String) (hour : Fin 24) (date : String) (units_produced : Int)
    (now : Nat) : List ProductionRecord × List LogLevel × Option String :=
  if storeFail then (store, [LogLevel.error], none)
  else (update_production_record store machine_id hour date units_produced now, [], none)

/-!
## PLC reads and the sensor loop (`PLCConnector`, `SignalRecorderDaemon.read_sensors`)

The PLC is an oracle: `db1` is the byte returned by `db_read(1, 0, 1)`
(`none` models the read raising), `db2 a` the 16-bit word returned by
`db_read(2, a, 2)` (`none` models a raise). `db_ok` says whether the
MongoDB insert performed by `store_signal_data` succeeds.
-/

structure PlcEnv where
  connected : Bool
  db1 : Option Nat
  db2 : Nat → Option Nat

/-- `PLCConnector.read_digital_input` (lines 86–110).  Every exception —
bad pin format, non-numeric pin index, failed `db_read` — is caught by
the `except`, which logs an error and makes the function return `False`.
A disconnected client returns `False` silently. -/
def read_digital_input (connected : Bool) (db1 : Option Nat) (pin : String) :
    Bool × List LogLevel :=
  if !connected then (false, [])
  else if !(startsWithL pin.toList ("DQ.".toList)) then (false, [LogLevel.error])
  else
    match digitsToNat? (takeUntilDot (afterFirstDot pin.toList)) with
    | none => (false, [LogLevel.error])
    | some pin_number =>
      match db1 with
      | none => (false, [LogLevel.error])
      | some byte => (byte.testBit pin_number, [])

/-- `PLCConnector.read_analog_input` (lines 112–127): a failed `db_read`
is caught, logged, and turned into `0.0`; a disconnected client returns
`0.0` silently. -/
def read_analog_input (connected : Bool) (db2 : Nat → Option Nat) (address : Nat) :
    ℚ × List LogLevel :=
  if !connected then (0, [])
  else
    match db2 address with
    | none => (0, [LogLevel.error])
    | some v => ((v : ℚ), [])

/-- A `SensorReading` dataclass instance (lines 37–44). -/
structure SensorReading where
  sensor_id : String
  machine_id : String
  value : ℚ
  timestamp : Nat
  sensor_type : String
deriving DecidableEq, Repr

/-- One joined sensor-mapping document (`get_sensor_mappings`):
`mapping['sensor']['_id']`, `['sensor']['sensorType']`,
`mapping['machine']['_id']`, `mapping['pinId']`. -/
structure Mapping where
  sensorId : String
  machineId : String
  sensorType : String
  pinId : String
deriving DecidableEq, Repr

/-- `DatabaseManager.store_signal_data` (lines 158–173): inserts the
document, catching and logging any store error internally.  Returns the
list of documents inserted and the log entries emitted. -/
def store_signal_data (db_ok : Bool) (reading : SensorReading) :
    List SensorReading × List LogLevel :=
  if db_ok then ([reading], []) else ([], [LogLevel.error])

/-- The body of the `for mapping in self.sensor_mappings` loop of
`read_sensors` (lines 399–442) for one mapping: returns the updated
processor, the raw samples written to the store, and the log entries.
A sensor type that is neither `"power"` nor `"unit-cycle"` matches no
branch: nothing happens and nothing is logged. -/
def read_sensors_one (plc : PlcEnv) (db_ok : Bool) (now : Nat) (mapping : Mapping)
    (proc : SignalProcessor) : SignalProcessor × List SensorReading × List LogLevel :=
  if mapping.sensorType = "power" then
    let ra := read_analog_input plc.connected plc.db2 0
    let reading : SensorReading :=
      ⟨mapping.sensorId, mapping.machineId, ra.1, now, "power"⟩
    let sd := store_signal_data db_ok reading
    (process_power_signal proc mapping.machineId ra.1, sd.1, ra.2 ++ sd.2)
  else if mapping.sensorType = "unit-cycle" then
    let rd := read_digital_input plc.connected plc.db1 mapping.pinId
    let reading : SensorReading :=
      ⟨mapping.sensorId, mapping.machineId, if rd.1 then 1 else 0, now, "unit-cycle"⟩
    let sd := store_signal_data db_ok reading
    (process_cycle_signal proc mapping.machineId rd.1, sd.1, rd.2 ++ sd.2)
  else
    (proc, [], [])

/-- `SignalRecorderDaemon.read_sensors`: the whole loop over the loaded
mappings. -/
def read_sensors (plc : PlcEnv) (db_ok : Bool) (now : Nat) :
    List Mapping → SignalProcessor → SignalProcessor × List SensorReading × List LogLevel
  | [], proc => (proc, [], [])
  | mp :: rest, proc =>
    let one := read_sensors_one plc db_ok now mp proc
    let more := read_sensors plc db_ok now rest one.1
    (more.1, one.2.1 ++ more.2.1, one.2.2 ++ more.2.2)

/-!
## Hourly rollup driver (`SignalRecorderDaemon.update_production_records`,
lines 444–469) and the scheduled jobs (lines 393–395)
-/

/-- `set(...)` of machine ids built from the sensor mappings (lines
452–454).  CPython set iteration order is arbitrary; we model it as
first-occurrence order, and no theorem below depends on the order beyond
membership and uniqueness. -/
def dedupKeepFirst (l : List String) : List String :=
  match l with
  | [] => []
  | x :: xs => x :: dedupKeepFirst (xs.filter (fun y => y ≠ x))
termination_by l.length
decreasing_by
  simp only [List.length_cons]
  exact Nat.lt_succ_of_le (List.length_filter_le _ _)

/-- The per-machine loop body of `update_production_records` (lines
457–466), folded over the machine-id set.  For each machine, the hourly
count is read; the store is called only when it is positive, and a
`logger.info` line follows each store call. -/
def update_production_records_go (storeFail : Bool) (proc : SignalProcessor)
    (hour : Fin 24) (date : String) (now : Nat) :
    List String → List ProductionRecord → List LogLevel →
      List ProductionRecord × List LogLevel
  | [], store, logs => (store, logs)
  | m :: rest, store, logs =>
    let units : Int := (get_hourly_production proc m : Int)
    if 0 < units then
      let call := update_production_record_call storeFail store m hour date units now
      update_production_records_go storeFail proc hour date now rest call.1
        (logs ++ call.2.1 ++ [LogLevel.info])
    else
      update_production_records_go storeFail proc hour date now rest store logs

/-- `SignalRecorderDaemon.update_production_records` (lines 444–469).  The
body is additionally wrapped in a `try/except` that logs — but since
`update_production_record` swallows its own store errors, the loop always
completes. -/
def update_production_records (storeFail : Bool) (mappings : List Mapping)
    (proc : SignalProcessor) (store : List ProductionRecord) (date : String)
    (hour : Fin 24) (now : Nat) : List ProductionRecord × List LogLevel :=
  update_production_records_go storeFail proc hour date now
    (dedupKeepFirst (mappings.map (·.machineId))) store []

/-- The daemon state touched by the two scheduled jobs. -/
structure DaemonState where
  processor : SignalProcessor
  store : List ProductionRecord
deriving Repr

/-- The two jobs registered in `initialize` (lines 393–395). -/
inductive ScheduledJob where
  | update_records
  | reset_counters
deriving DecidableEq, Repr

/-- Registration order from lines 394–395: `update_production_records`
first, `reset_hourly_counters` second.  Both are due at `:00`; the
`schedule` library runs due jobs sorted by next-run time with a stable
sort, i.e. in registration order on ties. -/
def scheduled_jobs : List ScheduledJob := [ScheduledJob.update_records, ScheduledJob.reset_counters]

def run_job (storeFail : Bool) (mappings : List Mapping) (date : String)
    (hour : Fin 24) (now : Nat) : ScheduledJob → DaemonState → DaemonState × List LogLevel
  | ScheduledJob.update_records, s =>
    let res := update_production_records storeFail mappings s.processor s.store date hour now
    ({ s with store := res.1 }, res.2)
  | ScheduledJob.reset_counters, s =>
    ({ s with processor := reset_hourly_counters s.processor }, [LogLevel.info])

/-- `schedule.run_pending()` at the top of the hour: run the registered
jobs in order. -/
def run_pending (storeFail : Bool) (mappings : List Mapping) (date : String)
    (hour : Fin 24) (now : Nat) (s : DaemonState) : DaemonState × List LogLevel :=
  scheduled_jobs.foldl
    (fun acc j =>
      let r := run_job storeFail mappings date hour now j acc.1
      (r.1, acc.2 ++ r.2))
    (s, [])

/-!
## Config loading (`SignalRecorderDaemon.load_config`, lines 331–370;
the same merge code appears in `signal_daemon.py`, lines 101–136)

JSON values are modelled as objects, strings and integers — the shapes
occurring in `default_config` and the interesting user configs.  The
Python semantics of the merge loop is modelled operation by operation:
`k in c` is key membership on a dict but *substring* containment on a
string and a `TypeError` on a number; item assignment on a non-dict
raises.  Any exception escaping the merge is caught by the surrounding
`try/except`, which returns the full `default_config`.
-/

inductive JVal where
  | str : String → JVal
  | num : Int → JVal
  | obj : List (String × JVal) → JVal

/-- Python `k in c`: key membership on dicts, substring test on strings,
`TypeError` (modelled as `Except.error`) on numbers. -/
def jmem (k : String) : JVal → Except Unit Bool
  | JVal.obj kvs => Except.ok (alookup kvs k).isSome
  | JVal.str s => Except.ok (containsSub s.toList k.toList)
  | JVal.num _ => Except.error ()

/-- Python `c[k]` read: dict item lookup; `KeyError`/`TypeError`
otherwise. -/
def jget (c : JVal) (k : String) : Except Unit JVal :=
  match c with
  | JVal.obj kvs =>
    match alookup kvs k with
    | some v => Except.ok v
    | none => Except.error ()
  | _ => Except.error ()

/-- Python `c[k] = v` on the top-level object: dict item assignment;
`TypeError` on non-dicts. -/
def jsetTop (c : JVal) (k : String) (v : JVal) : Except Unit JVal :=
  match c with
  | JVal.obj kvs => Except.ok (JVal.obj (aset kvs k v))
  | _ => Except.error ()

/-- One iteration of the inner loop:
`if subkey not in config[key]: config[key][subkey] = subvalue`. -/
def mergeSubOne (cfg : JVal) (k sk : String) (sv : JVal) : Except Unit JVal :=
  match jget cfg k with
  | Except.error e => Except.error e
  | Except.ok sec =>
    match jmem sk sec with
    | Except.error e => Except.error e
    | Except.ok mem =>
      if mem then Except.ok cfg
      else
        match sec with
        | JVal.obj skvs => jsetTop cfg k (JVal.obj (aset skvs sk sv))
        | _ => Except.error ()

/-- The inner `for subkey, subvalue in value.items()` loop. -/
def mergeSubs (cfg : JVal) (k : String) : List (String × JVal) → Except Unit JVal
  | [] => Except.ok cfg
  | (sk, sv) :: rest =>
    match mergeSubOne cfg k sk sv with
    | Except.ok c => mergeSubs c k rest
    | Except.error e => Except.error e

/-- One iteration of the outer loop:
`if key not in config: config[key] = value; elif isinstance(value, dict): …`. -/
def mergeSection (cfg : JVal) (k : String) (v : JVal) : Except Unit JVal :=
  match jmem k cfg with
  | Except.error e => Except.error e
  | Except.ok mem =>
    if !mem then jsetTop cfg k v
    else
      match v with
      | JVal.obj subs => mergeSubs cfg k subs
      | _ => Except.ok cfg

/-- The outer `for key, value in default_config.items()` loop. -/
def mergeAll (cfg : JVal) : List (String × JVal) → Except Unit JVal
  | [] => Except.ok cfg
  | (k, v) :: rest =>
    match mergeSection cfg k v with
    | Except.ok c => mergeAll c rest
    | Except.error e => Except.error e

def plcDefaults : List (String × JVal) :=
  [("ip", JVal.str "192.168.1.11"), ("rack", JVal.num 0), ("slot", JVal.num 1)]

def mongodbDefaults : List (String × JVal) :=
  [("connection_string", JVal.str "mongodb://localhost:27017/industrial_iot")]

def samplingDefaults : List (String × JVal) :=
  [("interval_seconds", JVal.num 5), ("production_update_minutes", JVal.num 60)]

def loggingDefaults : List (String × JVal) :=
  [("level", JVal.str "INFO")]

def default_config_entries : List (String × JVal) :=
  [("plc", JVal.obj plcDefaults), ("mongodb", JVal.obj mongodbDefaults),
   ("sampling", JVal.obj samplingDefaults), ("logging", JVal.obj loggingDefaults)]

def default_config : JVal := JVal.obj default_config_entries

/-- The observable states of the configuration file: missing, unreadable
(`open` raises), malformed (`json.load` raises), or parsed to a JSON
value. -/
inductive ConfigFile where
  | absent
  | unreadable
  | malformed
  | parsed : JVal → ConfigFile

/-- `SignalRecorderDaemon.load_config` (lines 331–370): defaults when the
file is missing; defaults when reading/parsing raises; otherwise the
merge loop, with any exception inside it also caught and turned into the
full defaults. -/
def load_config : ConfigFile → JVal
  | ConfigFile.absent => default_config
  | ConfigFile.unreadable => default_config
  | ConfigFile.malformed => default_config
  | ConfigFile.parsed cfg =>
    match mergeAll cfg default_config_entries with
    | Except.ok c => c
    | Except.error _ => default_config

/-- Is sub-key `sk` present inside the object stored at top-level key `k`?
(False when the config or the section is not an object, or the key is
absent.) -/
def hasSubKey (c : JVal) (k sk : String) : Bool :=
  match c with
  | JVal.obj kvs =>
    match alookup kvs k with
    | some (JVal.obj sec) => (alookup sec sk).isSome
    | _ => false
  | _ => false

/-- Top-level key `k` is present, and — whenever its value is an object —
all sub-keys of `subs` are present in it. -/
def sectionFilled (kvs : List (String × JVal)) (k : String)
    (subs : List (String × JVal)) : Bool :=
  match alookup kvs k with
  | some (JVal.obj sec) => subs.all (fun x => (alookup sec x.1).isSome)
  | some _ => true
  | none => false

/-- `sectionFilled` lifted to a whole config value. -/
def configSectionFilled (c : JVal) (k : String) (subs : List (String × JVal)) : Bool :=
  match c with
  | JVal.obj kvs => sectionFilled kvs k subs
  | _ => false

/-- A temperature mapping — a sensor type matched by neither branch of
`read_sensors`. -/
def tempMapping : Mapping := ⟨"S9", "M7", "temperature", "DQ.0"⟩

/-- A healthy PLC environment. -/
def plcEnvOk : PlcEnv := ⟨true, some 0, fun _ => some 0⟩

/-- A unit-cycle mapping used in the C7 scenario. -/
def cycleMapping : Mapping := ⟨"S2", "M2", "unit-cycle", "DQ.4"⟩

/-- The PLC environment in which every `db_read` raises. -/
def plcFailEnv : PlcEnv := ⟨true, none, fun _ => none⟩

/-- The processor used in the C9 witness: machine `"M1"` has 3 counted
cycles and a high last level. -/
def witnessProcessor : SignalProcessor := ⟨[], [("M1", 3)], [("M1", true)]⟩

/-- A parsed config whose `"sampling"` section is a STRING that happens to
contain both default sub-key names as substrings: Python's `in` on a
string is substring containment, so the merge loop skips both sub-keys
and the string survives as the whole section. -/
def badConfig : JVal :=
  JVal.obj [("sampling", JVal.str "interval_seconds production_update_minutes")]

theorem alookup_aset_self {β : Type} (l : List (String × β)) (k : String) (v : β) :
    alookup (aset l k v) k = some v := by
  induction l with
  | nil => simp [aset, alookup]
  | cons pr t ih =>
    obtain ⟨k', v'⟩ := pr
    by_cases h : k' = k
    · simp [aset, h, alookup]
    · simp [aset, h, alookup, ih]

theorem alookup_aset_ne {β : Type} (l : List (String × β)) (k a : String) (v : β)
    (h : a ≠ k) : alookup (aset l k v) a = alookup l a := by
  have hka : k ≠ a := h.symm
  induction l with
  | nil => simp [aset, alookup, hka]
  | cons pr t ih =>
    obtain ⟨k', v'⟩ := pr
    by_cases hk : k' = k
    · subst hk
      simp [aset, alookup, hka]
    · by_cases ha : k' = a
      · simp [aset, hk, alookup, ha, h]
      · simp [aset, hk, alookup, ha, ih]

/-- A key that appears in an association list is found by `alookup`. -/
theorem alookup_isSome_of_mem {β : Type} {l : List (String × β)} {k : String} {v : β}
    (h : (k, v) ∈ l) : (alookup l k).isSome = true := by
  induction l with
  | nil => cases h
  | cons pr t ih =>
    obtain ⟨k', v'⟩ := pr
    rcases List.mem_cons.mp h with h1 | h2
    · cases h1
      simp [alookup]
    · by_cases hk : k' = k
      · simp [alookup, hk]
      · simp [alookup, hk, ih h2]

/-- Main induction for the cycle counter: once a machine is initialised
(count and last level both present), feeding further levels adds exactly
the number of rising edges relative to the recorded last level. -/
theorem observe_list_count (m : String) (levels : List Bool) :
    ∀ (p : SignalProcessor) (c : Nat) (prev : Bool),
      alookup p.cycle_counts m = some c →
      alookup p.last_cycle_state m = some prev →
      get_hourly_production (observe_list p m levels) m = c + risingEdges prev levels := by
  induction levels with
  | nil =>
    intro p c prev hc _hl
    simp [observe_list, get_hourly_production, hc, risingEdges]
  | cons l t ih =>
    intro p c prev hc hl
    have hstep : observe_list p m (l :: t) = observe_list (process_cycle_signal p m l) m t := by
      simp [observe_list]
    rw [hstep]
    have hinit : (alookup p.cycle_counts m).isNone = false := by simp [hc]
    by_cases hedge : (l && !prev) = true
    · have hc' : alookup (process_cycle_signal p m l).cycle_counts m = some (c + 1) := by
        simp [process_cycle_signal, hinit, hl, hedge, hc, alookup_aset_self]
      have hl' : alookup (process_cycle_signal p m l).last_cycle_state m = some l := by
        simp [process_cycle_signal, hinit, hl, hedge, alookup_aset_self]
      rw [ih _ _ _ hc' hl']
      simp [risingEdges, hedge]
      omega
    · have hc' : alookup (process_cycle_signal p m l).cycle_counts m = some c := by
        simp [process_cycle_signal, hinit, hl, hedge, hc]
      have hl' : alookup (process_cycle_signal p m l).last_cycle_state m = some l := by
        simp [process_cycle_signal, hinit, hl, hedge, alookup_aset_self]
      rw [ih _ _ _ hc' hl']
      simp [risingEdges, hedge]

/-- Starting from a just-reset processor (empty `cycle_counts`), a level
sequence produces exactly its rising-edge count with initial level taken
as false. -/
theorem observe_list_count_from_reset (p : SignalProcessor) (m : String)
    (levels : List Bool) :
    get_hourly_production (observe_list (reset_hourly_counters p) m levels) m =
      risingEdges false levels := by
  cases levels with
  | nil =>
    simp [observe_list, reset_hourly_counters, get_hourly_production, alookup, risingEdges]
  | cons l t =>
    have hstep :
        observe_list (reset_hourly_counters p) m (l :: t) =
          observe_list (process_cycle_signal (reset_hourly_counters p) m l) m t := by
      simp [observe_list]
    rw [hstep]
    have hnone : (alookup (reset_hourly_counters p).cycle_counts m).isNone = true := by
      simp [reset_hourly_counters, alookup]
    cases l with
    | true =>
      have hc' :
          alookup (process_cycle_signal (reset_hourly_counters p) m true).cycle_counts m =
            some 1 := by
        simp [process_cycle_signal, reset_hourly_counters, hnone, alookup,
          alookup_aset_self]
      have hl' :
          alookup (process_cycle_signal (reset_hourly_counters p) m true).last_cycle_state m =
            some true := by
        simp [process_cycle_signal, reset_hourly_counters, hnone, alookup,
          alookup_aset_self]
      rw [observe_list_count m t _ 1 true hc' hl']
      simp [risingEdges]
    | false =>
      have hc' :
          alookup (process_cycle_signal (reset_hourly_counters p) m false).cycle_counts m =
            some 0 := by
        simp [process_cycle_signal, reset_hourly_counters, hnone, alookup, alookup_aset_self]
      have hl' :
          alookup (process_cycle_signal (reset_hourly_counters p) m false).last_cycle_state m =
            some false := by
        simp [process_cycle_signal, reset_hourly_counters, hnone, alookup, alookup_aset_self]
      rw [observe_list_count m t _ 0 false hc' hl']
      simp [risingEdges]

theorem power_window_process (p : SignalProcessor) (m : String) (v : ℚ) :
    power_window (process_power_signal p m v) m = stepWin (power_window p m) v := by
  simp [power_window, process_power_signal, stepWin, alookup_aset_self]

theorem power_window_observe (m : String) (vs : List ℚ) :
    ∀ p : SignalProcessor,
      power_window (observe_power_list p m vs) m =
        vs.foldl stepWin (power_window p m) := by
  induction vs with
  | nil => intro p; simp [observe_power_list]
  | cons v vs ih =>
    intro p
    have h1 : observe_power_list p m (v :: vs) =
        observe_power_list (process_power_signal p m v) m vs := by
      simp [observe_power_list]
    rw [h1, ih, power_window_process]
    simp

theorem stepWin_eq_drop (w : List ℚ) (v : ℚ) (hw : w.length ≤ 60) :
    stepWin w v = (w ++ [v]).drop ((w.length + 1) - 60) := by
  by_cases h : (w ++ [v]).length > 60
  · simp only [stepWin, if_pos h]
    simp
  · simp only [stepWin, if_neg h]
    have : w.length + 1 ≤ 60 := by simpa using h
    have h0 : (w.length + 1) - 60 = 0 := by omega
    rw [h0, List.drop_zero]

theorem stepWin_length_le (w : List ℚ) (v : ℚ) (hw : w.length ≤ 60) :
    (stepWin w v).length ≤ 60 := by
  rw [stepWin_eq_drop w v hw]
  simp only [List.length_drop, List.length_append, List.length_singleton]
  omega

theorem foldl_stepWin_eq_drop (vs : List ℚ) :
    ∀ w : List ℚ, w.length ≤ 60 →
      vs.foldl stepWin w = (w ++ vs).drop ((w.length + vs.length) - 60) := by
  induction vs with
  | nil =>
    intro w hw
    have h0 : w.length - 60 = 0 := by omega
    simp [h0]
  | cons v vs ih =>
    intro w hw
    have hlen : (stepWin w v).length ≤ 60 := stepWin_length_le w v hw
    have h1 : (v :: vs).foldl stepWin w = vs.foldl stepWin (stepWin w v) := by simp
    rw [h1, ih _ hlen, stepWin_eq_drop w v hw]
    have hdrop1 : (w.length + 1) - 60 ≤ (w ++ [v]).length := by
      simp only [List.length_append, List.length_singleton]
      omega
    rw [← List.drop_append_of_le_length hdrop1, List.drop_drop]
    have hassoc : (w ++ [v]) ++ vs = w ++ v :: vs := by simp
    rw [hassoc]
    congr 1
    simp only [List.length_drop, List.length_append, List.length_singleton, List.length_cons,
      List.length_nil]
    omega

/-- The window stored after feeding `vs` from the fresh processor is the
last (at most) 60 of `vs`, uniformly expressed as a drop. -/
theorem power_window_closed_form (m : String) (vs : List ℚ) :
    power_window (observe_power_list signalProcessorInit m vs) m =
      vs.drop (vs.length - 60) := by
  rw [power_window_observe]
  have h0 : power_window signalProcessorInit m = [] := by
    simp [power_window, signalProcessorInit, alookup]
  rw [h0, foldl_stepWin_eq_drop vs [] (by simp)]
  simp

theorem length_updateFirst (p : ProductionRecord → Bool)
    (f : ProductionRecord → ProductionRecord) (l : List ProductionRecord) :
    (updateFirst p f l).length = l.length := by
  induction l with
  | nil => rfl
  | cons r rs ih =>
    by_cases h : p r
    · simp [updateFirst, h]
    · simp [updateFirst, h, ih]

theorem mem_updateFirst_of_not_p {p : ProductionRecord → Bool}
    {f : ProductionRecord → ProductionRecord} {l : List ProductionRecord}
    {R : ProductionRecord} (hR : R ∈ l) (hp : p R = false) :
    R ∈ updateFirst p f l := by
  induction l with
  | nil => cases hR
  | cons r rs ih =>
    rcases List.mem_cons.mp hR with h1 | h2
    · subst h1
      simp [updateFirst, hp]
    · cases hx : p r with
      | true => simp [updateFirst, hx, List.mem_cons, h2]
      | false =>
        simp only [updateFirst, hx, Bool.false_eq_true, if_false]
        exact List.mem_cons.mpr (Or.inr (ih h2))

theorem find?_updateFirst {p : ProductionRecord → Bool}
    {f : ProductionRecord → ProductionRecord}
    (hf : ∀ r, p r = true → p (f r) = true) :
    ∀ {l : List ProductionRecord} {r : ProductionRecord},
      l.find? p = some r → (updateFirst p f l).find? p = some (f r) := by
  intro l
  induction l with
  | nil => intro r h; simp [List.find?] at h
  | cons x xs ih =>
    intro r h
    cases hx : p x with
    | true =>
      have hrx : r = x := by
        rw [List.find?_cons_of_pos _ hx] at h
        exact (Option.some.injEq _ _ ▸ h).symm
      subst hrx
      simp [updateFirst, hx, List.find?_cons_of_pos _ (hf r hx)]
    | false =>
      rw [List.find?_cons_of_neg _ (by simp [hx])] at h
      simp only [updateFirst, hx, Bool.false_eq_true, if_false]
      rw [List.find?_cons_of_neg _ (by simp [hx])]
      exact ih h

theorem mem_updateFirst_machineId {p : ProductionRecord → Bool}
    {f : ProductionRecord → ProductionRecord}
    (hf : ∀ r, (f r).machineId = r.machineId) {l : List ProductionRecord}
    {m : String} (hl : ∀ r ∈ l, r.machineId ≠ m) :
    ∀ r ∈ updateFirst p f l, r.machineId ≠ m := by
  induction l with
  | nil => intro r h; cases h
  | cons x xs ih =>
    intro r h
    cases hx : p x with
    | true =>
      simp only [updateFirst, hx, if_true] at h
      rcases List.mem_cons.mp h with h1 | h2
      · subst h1
        rw [hf]
        exact hl x (List.mem_cons_self _ _)
      · exact hl r (List.mem_cons.mpr (Or.inr h2))
    | false =>
      simp only [updateFirst, hx, Bool.false_eq_true, if_false] at h
      rcases List.mem_cons.mp h with h1 | h2
      · subst h1
        exact hl r (List.mem_cons_self _ _)
      · exact ih (fun r' hr' => hl r' (List.mem_cons.mpr (Or.inr hr'))) r h2

/-- If no record for machine `m` is in the store, the bucket query for `m`
finds nothing. -/
theorem find?_bucket_eq_none {store : List ProductionRecord} {m date : String}
    {hour : Fin 24} (h : ∀ r ∈ store, r.machineId ≠ m) :
    store.find? (bucketMatch m date hour) = none := by
  rw [List.find?_eq_none]
  intro r hr
  simp only [bucketMatch, decide_eq_true_eq]
  rintro ⟨h1, -, -⟩
  exact h r hr h1

/-- With no record for machine `m` present, `update_production_record`
appends the freshly created record. -/
theorem update_production_record_creates {store : List ProductionRecord}
    {m date : String} {hour : Fin 24} (u : Int) (now : Nat)
    (h : ∀ r ∈ store, r.machineId ≠ m) :
    update_production_record store m hour date u now =
      store ++ [newProductionRecord m hour date u now] := by
  simp [update_production_record, find?_bucket_eq_none h]

/-- A rollup for machine `d ≠ m` never introduces a record for `m`. -/
theorem update_production_record_preserves_absence {store : List ProductionRecord}
    {m d date : String} {hour : Fin 24} (u : Int) (now : Nat) (hdm : d ≠ m)
    (h : ∀ r ∈ store, r.machineId ≠ m) :
    ∀ r ∈ update_production_record store d hour date u now, r.machineId ≠ m := by
  unfold update_production_record
  cases hfind : store.find? (bucketMatch d date hour) with
  | some r0 =>
    exact mem_updateFirst_machineId (f := applyRollupUpdate hour u now) (fun r => rfl) h
  | none =>
    intro r hr
    rcases List.mem_append.mp hr with h1 | h2
    · exact h r h1
    · have : r = newProductionRecord d hour date u now := by simpa using h2
      subst this
      simpa [newProductionRecord] using hdm

/-- A record of a different machine survives a rollup untouched. -/
theorem update_production_record_preserves_mem {store : List ProductionRecord}
    {R : ProductionRecord} {d date : String} {hour : Fin 24} (u : Int) (now : Nat)
    (hR : R ∈ store) (hne : R.machineId ≠ d) :
    R ∈ update_production_record store d hour date u now := by
  unfold update_production_record
  cases hfind : store.find? (bucketMatch d date hour) with
  | some r0 =>
    apply mem_updateFirst_of_not_p hR
    simp only [bucketMatch, decide_eq_false_iff_not]
    rintro ⟨h1, -, -⟩
    exact hne h1
  | none => exact List.mem_append.mpr (Or.inl hR)

theorem mem_dedupKeepFirst (l : List String) (a : String) :
    a ∈ dedupKeepFirst l ↔ a ∈ l := by
  have H : ∀ (n : Nat) (l : List String), l.length ≤ n →
      ∀ a : String, (a ∈ dedupKeepFirst l ↔ a ∈ l) := by
    intro n
    induction n with
    | zero =>
      intro l hl a
      have : l = [] := List.length_eq_zero.mp (Nat.le_zero.mp hl)
      subst this
      simp [dedupKeepFirst]
    | succ n ih =>
      intro l hl a
      cases l with
      | nil => simp [dedupKeepFirst]
      | cons x xs =>
        rw [dedupKeepFirst]
        have hle : (xs.filter (fun y => y ≠ x)).length ≤ n := by
          have h1 := List.length_filter_le (fun y => y ≠ x) xs
          simp only [List.length_cons] at hl
          omega
        have hrec := ih _ hle a
        simp only [List.mem_cons, hrec, List.mem_filter, decide_eq_true_eq]
        constructor
        · rintro (h1 | ⟨h2, -⟩)
          · exact Or.inl h1
          · exact Or.inr h2
        · rintro (h1 | h2)
          · exact Or.inl h1
          · by_cases hax : a = x
            · exact Or.inl hax
            · exact Or.inr ⟨h2, hax⟩
  exact H l.length l le_rfl a

theorem nodup_dedupKeepFirst (l : List String) : (dedupKeepFirst l).Nodup := by
  have H : ∀ (n : Nat) (l : List String), l.length ≤ n → (dedupKeepFirst l).Nodup := by
    intro n
    induction n with
    | zero =>
      intro l hl
      have : l = [] := List.length_eq_zero.mp (Nat.le_zero.mp hl)
      subst this
      simp [dedupKeepFirst]
    | succ n ih =>
      intro l hl
      cases l with
      | nil => simp [dedupKeepFirst]
      | cons x xs =>
        rw [dedupKeepFirst]
        have hle : (xs.filter (fun y => y ≠ x)).length ≤ n := by
          have h1 := List.length_filter_le (fun y => y ≠ x) xs
          simp only [List.length_cons] at hl
          omega
        refine List.nodup_cons.mpr ⟨?_, ih _ hle⟩
        intro hx
        have := (mem_dedupKeepFirst _ _).mp hx
        simp [List.mem_filter] at this
  exact H l.length l le_rfl

/-! Lemmas about the rollup driver fold. -/

theorem go_store_fail (proc : SignalProcessor) (hour : Fin 24) (date : String) (now : Nat) :
    ∀ (ids : List String) (store : List ProductionRecord) (logs : List LogLevel),
      (update_production_records_go true proc hour date now ids store logs).1 = store := by
  intro ids
  induction ids with
  | nil => intro store logs; rfl
  | cons m rest ih =>
    intro store logs
    by_cases h : (0:Int) < (get_hourly_production proc m : Int)
    · simp only [update_production_records_go, if_pos h, update_production_record_call,
        if_true]
      exact ih _ _
    · simp only [update_production_records_go, if_neg h]
      exact ih _ _

theorem go_all_zero (proc : SignalProcessor) (hour : Fin 24) (date : String) (now : Nat)
    (storeFail : Bool) (hzero : ∀ m : String, get_hourly_production proc m = 0) :
    ∀ (ids : List String) (store : List ProductionRecord) (logs : List LogLevel),
      update_production_records_go storeFail proc hour date now ids store logs =
        (store, logs) := by
  intro ids
  induction ids with
  | nil => intro store logs; rfl
  | cons m rest ih =>
    intro store logs
    have h : ¬ (0:Int) < (get_hourly_production proc m : Int) := by
      rw [hzero m]
      simp
    simp only [update_production_records_go, if_neg h]
    exact ih _ _

theorem go_preserves_absence (proc : SignalProcessor) (hour : Fin 24) (date : String)
    (now : Nat) (storeFail : Bool) (m : String)
    (hm : get_hourly_production proc m = 0) :
    ∀ (ids : List String) (store : List ProductionRecord) (logs : List LogLevel),
      (∀ r ∈ store, r.machineId ≠ m) →
      ∀ r ∈ (update_production_records_go storeFail proc hour date now ids store logs).1,
        r.machineId ≠ m := by
  intro ids
  induction ids with
  | nil => intro store logs habs; exact habs
  | cons d rest ih =>
    intro store logs habs
    by_cases h : (0:Int) < (get_hourly_production proc d : Int)
    · have hdm : d ≠ m := by
        intro he
        subst he
        rw [hm] at h
        simp at h
      simp only [update_production_records_go, if_pos h]
      cases storeFail with
      | true =>
        simp only [update_production_record_call, if_true]
        exact ih _ _ habs
      | false =>
        simp only [update_production_record_call, Bool.false_eq_true, if_false]
        exact ih _ _ (update_production_record_preserves_absence _ _ hdm habs)
    · simp only [update_production_records_go, if_neg h]
      exact ih _ _ habs

theorem go_preserves_mem (proc : SignalProcessor) (hour : Fin 24) (date : String)
    (now : Nat) (R : ProductionRecord) :
    ∀ (ids : List String) (store : List ProductionRecord) (logs : List LogLevel),
      R ∈ store → (∀ d ∈ ids, d ≠ R.machineId) →
      R ∈ (update_production_records_go false proc hour date now ids store logs).1 := by
  intro ids
  induction ids with
  | nil => intro store logs hR _; exact hR
  | cons d rest ih =>
    intro store logs hR hne
    by_cases h : (0:Int) < (get_hourly_production proc d : Int)
    · simp only [update_production_records_go, if_pos h, update_production_record_call,
        Bool.false_eq_true, if_false]
      refine ih _ _ ?_ (fun d' hd' => hne d' (List.mem_cons.mpr (Or.inr hd')))
      exact update_production_record_preserves_mem _ _ hR
        (fun he => hne d (List.mem_cons_self _ _) he.symm)
    · simp only [update_production_records_go, if_neg h]
      exact ih _ _ hR (fun d' hd' => hne d' (List.mem_cons.mpr (Or.inr hd')))

theorem go_creates (proc : SignalProcessor) (hour : Fin 24) (date : String)
    (now : Nat) (m : String) (c : Nat) (hc : get_hourly_production proc m = c)
    (hpos : 0 < c) :
    ∀ (ids : List String) (store : List ProductionRecord) (logs : List LogLevel),
      m ∈ ids → ids.Nodup → (∀ r ∈ store, r.machineId ≠ m) →
      newProductionRecord m hour date (c : Int) now ∈
        (update_production_records_go false proc hour date now ids store logs).1 := by
  intro ids
  induction ids with
  | nil => intro store logs hmem _ _; cases hmem
  | cons d rest ih =>
    intro store logs hmem hnodup habs
    by_cases hdm : d = m
    · subst hdm
      have h : (0:Int) < (get_hourly_production proc d : Int) := by
        rw [hc]
        exact_mod_cast hpos
      simp only [update_production_records_go, if_pos h, update_production_record_call,
        Bool.false_eq_true, if_false]
      rw [hc]
      rw [update_production_record_creates _ _ habs]
      have hnotin : d ∉ rest := (List.nodup_cons.mp hnodup).1
      refine go_preserves_mem proc hour date now _ rest _ _ ?_ ?_
      · exact List.mem_append.mpr (Or.inr (List.mem_singleton.mpr rfl))
      · intro d' hd'
        simp only [newProductionRecord]
        intro he
        exact hnotin (he ▸ hd')
    · have hmem' : m ∈ rest := by
        rcases List.mem_cons.mp hmem with h1 | h2
        · exact absurd h1.symm hdm
        · exact h2
      have hnodup' : rest.Nodup := (List.nodup_cons.mp hnodup).2
      by_cases h : (0:Int) < (get_hourly_production proc d : Int)
      · simp only [update_production_records_go, if_pos h, update_production_record_call,
          Bool.false_eq_true, if_false]
        exact ih _ _ hmem' hnodup'
          (update_production_record_preserves_absence _ _ hdm habs)
      · simp only [update_production_records_go, if_neg h]
        exact ih _ _ hmem' hnodup' habs

/-! Lemmas about the merge loop. -/

theorem sectionFilled_congr {kvs1 kvs2 : List (String × JVal)} {k : String}
    (h : alookup kvs1 k = alookup kvs2 k) (subs : List (String × JVal)) :
    sectionFilled kvs1 k subs = sectionFilled kvs2 k subs := by
  unfold sectionFilled
  rw [h]

theorem mergeSubs_str (k : String) :
    ∀ (subs : List (String × JVal)) (kvs : List (String × JVal)) (s : String) (c : JVal),
      alookup kvs k = some (JVal.str s) →
      mergeSubs (JVal.obj kvs) k subs = Except.ok c → c = JVal.obj kvs := by
  intro subs
  induction subs with
  | nil =>
    intro kvs s c _ h
    simpa [mergeSubs] using h.symm
  | cons x rest ih =>
    obtain ⟨sk, sv⟩ := x
    intro kvs s c hl h
    simp only [mergeSubs, mergeSubOne, jget, hl, jmem] at h
    cases hb : containsSub s.toList sk.toList with
    | true =>
      rw [hb] at h
      simp only [if_true] at h
      exact ih kvs s c hl h
    | false =>
      rw [hb] at h
      simp at h

theorem mergeSubs_num (k : String) :
    ∀ (subs : List (String × JVal)) (kvs : List (String × JVal)) (n : Int) (c : JVal),
      alookup kvs k = some (JVal.num n) →
      mergeSubs (JVal.obj kvs) k subs = Except.ok c → c = JVal.obj kvs := by
  intro subs
  cases subs with
  | nil =>
    intro kvs n c _ h
    simpa [mergeSubs] using h.symm
  | cons x rest =>
    obtain ⟨sk, sv⟩ := x
    intro kvs n c hl h
    simp [mergeSubs, mergeSubOne, jget, hl, jmem] at h

theorem mergeSubs_obj (k : String) :
    ∀ (subs : List (String × JVal)) (kvs skvs : List (String × JVal)) (c : JVal),
      alookup kvs k = some (JVal.obj skvs) →
      mergeSubs (JVal.obj kvs) k subs = Except.ok c →
      ∃ kvs' skvs', c = JVal.obj kvs' ∧
        (∀ a : String, a ≠ k → alookup kvs' a = alookup kvs a) ∧
        alookup kvs' k = some (JVal.obj skvs') ∧
        (∀ sk0 : String, (alookup skvs sk0).isSome = true →
          (alookup skvs' sk0).isSome = true) ∧
        (∀ x ∈ subs, (alookup skvs' x.1).isSome = true) := by
  intro subs
  induction subs with
  | nil =>
    intro kvs skvs c hl h
    have hc : JVal.obj kvs = c := by simpa [mergeSubs] using h
    refine ⟨kvs, skvs, hc.symm, fun a _ => rfl, hl, fun sk0 hp => hp, by simp⟩
  | cons x rest ih =>
    obtain ⟨sk, sv⟩ := x
    intro kvs skvs c hl h
    simp only [mergeSubs, mergeSubOne, jget, hl, jmem] at h
    cases hp : (alookup skvs sk).isSome with
    | true =>
      rw [hp] at h
      simp only [if_true] at h
      obtain ⟨kvs', skvs', hc, hframe, hlk, hpres, hfill⟩ := ih kvs skvs c hl h
      refine ⟨kvs', skvs', hc, hframe, hlk, hpres, ?_⟩
      intro x hx
      rcases List.mem_cons.mp hx with h1 | h2
      · subst h1
        exact hpres sk hp
      · exact hfill x h2
    | false =>
      rw [hp] at h
      simp only [Bool.false_eq_true, if_false, jsetTop] at h
      obtain ⟨kvs', skvs', hc, hframe, hlk, hpres, hfill⟩ :=
        ih (aset kvs k (JVal.obj (aset skvs sk sv))) (aset skvs sk sv) c
          (alookup_aset_self _ _ _) h
      refine ⟨kvs', skvs', hc, ?_, hlk, ?_, ?_⟩
      · intro a ha
        rw [hframe a ha, alookup_aset_ne _ _ _ _ ha]
      · intro sk0 hsk0
        apply hpres sk0
        by_cases hss : sk0 = sk
        · subst hss
          simp [alookup_aset_self]
        · rw [alookup_aset_ne _ _ _ _ hss]
          exact hsk0
      · intro x hx
        rcases List.mem_cons.mp hx with h1 | h2
        · subst h1
          apply hpres
          simp [alookup_aset_self]
        · exact hfill x h2

theorem mergeSection_obj (k : String) (subs kvs : List (String × JVal)) (c : JVal)
    (h : mergeSection (JVal.obj kvs) k (JVal.obj subs) = Except.ok c) :
    ∃ kvs', c = JVal.obj kvs' ∧
      (∀ a : String, a ≠ k → alookup kvs' a = alookup kvs a) ∧
      sectionFilled kvs' k subs = true := by
  simp only [mergeSection, jmem] at h
  cases hm : alookup kvs k with
  | none =>
    rw [hm] at h
    simp only [Option.isSome_none, Bool.not_false, if_true, jsetTop] at h
    refine ⟨aset kvs k (JVal.obj subs), ?_, ?_, ?_⟩
    · exact (by simpa using h.symm)
    · intro a ha
      exact alookup_aset_ne _ _ _ _ ha
    · simp only [sectionFilled, alookup_aset_self]
      rw [List.all_eq_true]
      intro x hx
      obtain ⟨a, b⟩ := x
      exact alookup_isSome_of_mem hx
  | some w =>
    rw [hm] at h
    simp only [Option.isSome_some, Bool.not_true, Bool.false_eq_true, if_false] at h
    cases w with
    | obj skvs =>
      obtain ⟨kvs', skvs', hc, hframe, hlk, _hpres, hfill⟩ :=
        mergeSubs_obj k subs kvs skvs c hm h
      refine ⟨kvs', hc, hframe, ?_⟩
      simp only [sectionFilled, hlk]
      rw [List.all_eq_true]
      exact hfill
    | str s =>
      have hc := mergeSubs_str k subs kvs s c hm h
      subst hc
      exact ⟨kvs, rfl, fun a _ => rfl, by simp [sectionFilled, hm]⟩
    | num n =>
      have hc := mergeSubs_num k subs kvs n c hm h
      subst hc
      exact ⟨kvs, rfl, fun a _ => rfl, by simp [sectionFilled, hm]⟩

theorem mergeSection_str_error (k s : String) (sk0 : String × JVal)
    (subs : List (String × JVal)) (c : JVal) :
    mergeSection (JVal.str s) k (JVal.obj (sk0 :: subs)) = Except.ok c → False := by
  intro h
  simp only [mergeSection, jmem] at h
  cases hb : containsSub s.toList k.toList with
  | false =>
    rw [hb] at h
    simp [jsetTop] at h
  | true =>
    rw [hb] at h
    simp only [Bool.not_true, Bool.false_eq_true, if_false] at h
    obtain ⟨sk, sv⟩ := sk0
    simp [mergeSubs, mergeSubOne, jget] at h

theorem mergeSection_num_error (k : String) (n : Int) (v : JVal) (c : JVal) :
    mergeSection (JVal.num n) k v = Except.ok c → False := by
  intro h
  simp [mergeSection, jmem] at h

theorem mergeAll_obj :
    ∀ (entries : List (String × JVal)) (kvs : List (String × JVal)) (c : JVal),
      (∀ e ∈ entries, ∃ subs, e.2 = JVal.obj subs) →
      (entries.map Prod.fst).Nodup →
      mergeAll (JVal.obj kvs) entries = Except.ok c →
      ∃ kvs', c = JVal.obj kvs' ∧
        (∀ a : String, (∀ e ∈ entries, e.1 ≠ a) → alookup kvs' a = alookup kvs a) ∧
        (∀ e ∈ entries, ∀ subs, e.2 = JVal.obj subs →
          sectionFilled kvs' e.1 subs = true) := by
  intro entries
  induction entries with
  | nil =>
    intro kvs c _ _ h
    have hc : JVal.obj kvs = c := by simpa [mergeAll] using h
    exact ⟨kvs, hc.symm, fun a _ => rfl, by simp⟩
  | cons e rest ih =>
    obtain ⟨k, v⟩ := e
    intro kvs c hobj hnodup h
    obtain ⟨subs0, hv⟩ := hobj (k, v) (List.mem_cons_self _ _)
    simp only at hv
    subst hv
    simp only [mergeAll] at h
    cases hms : mergeSection (JVal.obj kvs) k (JVal.obj subs0) with
    | error e0 =>
      rw [hms] at h
      simp at h
    | ok c1 =>
      rw [hms] at h
      simp only at h
      obtain ⟨kvs1, hc1, hframe1, hfill1⟩ := mergeSection_obj k subs0 kvs c1 hms
      subst hc1
      obtain ⟨kvs', hc, hframeR, hfillR⟩ :=
        ih kvs1 c (fun e' he' => hobj e' (List.mem_cons.mpr (Or.inr he')))
          (List.nodup_cons.mp (by simpa using hnodup)).2 h
      have hknotin : ∀ e' ∈ rest, e'.1 ≠ k := by
        intro e' he' hek
        have : k ∈ rest.map Prod.fst := hek ▸ List.mem_map_of_mem Prod.fst he'
        exact (List.nodup_cons.mp (by simpa using hnodup)).1 this
      refine ⟨kvs', hc, ?_, ?_⟩
      · intro a ha
        have h1 : ∀ e' ∈ rest, e'.1 ≠ a :=
          fun e' he' => ha e' (List.mem_cons.mpr (Or.inr he'))
        have h2 : k ≠ a := ha (k, JVal.obj subs0) (List.mem_cons_self _ _)
        rw [hframeR a h1, hframe1 a h2.symm]
      · intro e' he' subs hsubs
        rcases List.mem_cons.mp he' with h1 | h2
        · subst h1
          simp only at hsubs
          have hsubs0 : subs = subs0 := by
            injection hsubs with h3
            exact h3.symm
          subst hsubs0
          have hlk : alookup kvs' k = alookup kvs1 k := hframeR k hknotin
          rw [sectionFilled_congr hlk subs]
          exact hfill1
        · exact hfillR e' h2 subs hsubs

/-!
## Claim theorems
-/

/-- C1: the claim states that after `reset_hourly_counters` the cycle
count reads 0 while `last_cycle_state` and `power_readings` are
unchanged — which holds — and that, in particular, a signal that was high
before the reset and is still high afterwards records no new unit until
it goes low and high again.  The last part is FALSE in the code: `clear()`
empties `cycle_counts`, so the next `process_cycle_signal` call takes the
initialisation branch and resets `last_cycle_state` to `False`, after
which the still-high level counts as a fresh rising edge.  Concretely:
observe `True`, reset, observe `True` again — the count is 1, not 0. -/
theorem C1_reset_straddle_double_count :
    (reset_hourly_counters (process_cycle_signal signalProcessorInit "M1" true)).cycle_counts
        = [] ∧
    get_hourly_production
        (reset_hourly_counters (process_cycle_signal signalProcessorInit "M1" true)) "M1"
        = 0 ∧
    (reset_hourly_counters (process_cycle_signal signalProcessorInit "M1" true)).last_cycle_state
        = (process_cycle_signal signalProcessorInit "M1" true).last_cycle_state ∧
    (reset_hourly_counters (process_cycle_signal signalProcessorInit "M1" true)).power_readings
        = (process_cycle_signal signalProcessorInit "M1" true).power_readings ∧
    get_hourly_production
        (process_cycle_signal
          (reset_hourly_counters (process_cycle_signal signalProcessorInit "M1" true))
          "M1" true)
        "M1" = 1 := by
  decide

/-- C2 counterexample: `update_production_record` itself has no zero
guard — called with `unitsProduced = 0` on an empty store it CREATES a
record (with `unitsProduced = 0`), so the claim as stated about
`update_production_record` is false.  (The guard `units_produced > 0`
lives in the caller `update_production_records`.) -/
theorem C2_cex_zero_creates_record :
    update_production_record [] "M1" 9 "2024-01-01" 0 17 =
        [newProductionRecord "M1" 9 "2024-01-01" 0 17] ∧
      update_production_record [] "M1" 9 "2024-01-01" 0 17 ≠ [] := by
  decide

/-- C2 amended: the zero-production no-op holds one level up, in the
rollup driver `update_production_records`: a machine whose hourly count
is 0 is skipped, so no record for it is ever created; and when every
machine's count is 0 the whole driver leaves the store untouched and
emits no log. -/
theorem C2_amended_driver_zero_guard :
    (∀ (mappings : List Mapping) (proc : SignalProcessor)
       (store : List ProductionRecord) (date : String) (hour : Fin 24) (now : Nat)
       (m : String),
        get_hourly_production proc m = 0 →
        (∀ r ∈ store, r.machineId ≠ m) →
        ∀ r ∈ (update_production_records false mappings proc store date hour now).1,
          r.machineId ≠ m) ∧
    (∀ (mappings : List Mapping) (proc : SignalProcessor)
       (store : List ProductionRecord) (date : String) (hour : Fin 24) (now : Nat)
       (storeFail : Bool),
        (∀ m : String, get_hourly_production proc m = 0) →
        update_production_records storeFail mappings proc store date hour now =
          (store, [])) := by
  constructor
  · intro mappings proc store date hour now m hm habs
    exact go_preserves_absence proc hour date now false m hm _ store [] habs
  · intro mappings proc store date hour now storeFail hzero
    exact go_all_zero proc hour date now storeFail hzero _ store []

/-- Witness for C2's amended theorem at a concrete input. -/
theorem C2_amended_witness :
    ((update_production_records false [⟨"S1", "M1", "unit-cycle", "DQ.4"⟩]
        signalProcessorInit [] "2024-01-01" 9 0).1.all
      (fun r => r.machineId ≠ "M1")) = true := by
  have h := C2_amended_driver_zero_guard.1 [⟨"S1", "M1", "unit-cycle", "DQ.4"⟩]
    signalProcessorInit [] "2024-01-01" 9 0 "M1" (by decide)
    (by intro r hr; cases hr)
  rw [List.all_eq_true]
  intro r hr
  simpa using h r hr

/-- C3: for any machine, the hourly count after feeding any finite level
sequence — from the fresh processor or from any just-reset processor,
the initial level being taken as false — is exactly the number of
`false → true` transitions, independent of how long each level lasts;
and an unseen machine reads 0. -/
theorem C3_cycle_count_eq_rising_edges (m : String) (levels : List Bool)
    (p : SignalProcessor) :
    get_hourly_production (observe_list signalProcessorInit m levels) m =
        risingEdges false levels ∧
    get_hourly_production (observe_list (reset_hourly_counters p) m levels) m =
        risingEdges false levels ∧
    get_hourly_production signalProcessorInit m = 0 := by
  refine ⟨?_, observe_list_count_from_reset p m levels, ?_⟩
  · have h : reset_hourly_counters signalProcessorInit = signalProcessorInit := rfl
    rw [← h]
    exact observe_list_count_from_reset signalProcessorInit m levels
  · simp [get_hourly_production, signalProcessorInit, alookup]

/-- Definitional bridge: `get_average_power` in terms of the stored
window. -/
theorem get_average_power_window (p : SignalProcessor) (m : String) :
    get_average_power p m =
      if power_window p m ≠ [] then
        (power_window p m).sum / ((power_window p m).length : ℚ)
      else 0 := rfl

/-- C4: after feeding `vs` for a machine, the stored window never exceeds
60 entries, and the average is the arithmetic mean of all values when
`n ≤ 60`, the mean of exactly the most recent 60 when `n > 60`, and `0.0`
when nothing has been observed. -/
theorem C4_power_average (m : String) (vs : List ℚ) :
    (power_window (observe_power_list signalProcessorInit m vs) m).length ≤ 60 ∧
    get_average_power (observe_power_list signalProcessorInit m vs) m =
      (if vs = [] then 0
       else if vs.length ≤ 60 then vs.sum / (vs.length : ℚ)
       else (vs.drop (vs.length - 60)).sum / 60) := by
  have hw := power_window_closed_form m vs
  constructor
  · rw [hw]
    simp only [List.length_drop]
    omega
  · rw [get_average_power_window, hw]
    by_cases h0 : vs = []
    · subst h0
      simp
    · by_cases h1 : vs.length ≤ 60
      · have hz : vs.length - 60 = 0 := by omega
        rw [hz, List.drop_zero, if_pos h0, if_neg (by simpa using h0), if_pos h1]
      · have hlen : (vs.drop (vs.length - 60)).length = 60 := by
          rw [List.length_drop]
          omega
        have hne : vs.drop (vs.length - 60) ≠ [] := by
          intro he
          rw [he] at hlen
          simp at hlen
        rw [if_pos hne, hlen, if_neg (by simpa using h0), if_neg h1]
        norm_num

/-- C5: a rollup on a bucket that already has a record overwrites the
top-level `unitsProduced` (it does not add), appends exactly one entry to
`hourlyData`, and neither adds nor removes records; concretely,
`rollup(m,d,9,5)` then `rollup(m,d,9,8)` from an empty store leaves
exactly one record with `unitsProduced = 8` and two `hourlyData` entries
— so repeated rollups are not idempotent. -/
theorem C5_rollup_overwrite_append :
    (∀ (store : List ProductionRecord) (m date : String) (hour : Fin 24) (u : Int)
       (now : Nat) (r : ProductionRecord),
        store.find? (bucketMatch m date hour) = some r →
        (update_production_record store m hour date u now).find? (bucketMatch m date hour)
            = some (applyRollupUpdate hour u now r) ∧
          (update_production_record store m hour date u now).length = store.length) ∧
    update_production_record
        (update_production_record [] "M1" 9 "2024-01-01" 5 100) "M1" 9 "2024-01-01" 8 200 =
      [{ machineId := "M1", unitsProduced := 8, defectiveUnits := 0,
         startDate := "2024-01-01", startHour := 9,
         hourlyData := [⟨9, 5, 0, "running"⟩, ⟨9, 8, 0, "running"⟩],
         createdAt := 100, updatedAt := 200 }] := by
  constructor
  · intro store m date hour u now r hfind
    have hp : ∀ r0, bucketMatch m date hour r0 = true →
        bucketMatch m date hour (applyRollupUpdate hour u now r0) = true := by
      intro r0 h
      simpa [bucketMatch, applyRollupUpdate] using h
    constructor
    · unfold update_production_record
      rw [hfind]
      exact find?_updateFirst hp hfind
    · unfold update_production_record
      rw [hfind]
      exact length_updateFirst _ _ _
  · decide

/-- Witness for C5's general conjunct at a concrete store. -/
theorem C5_rollup_witness :
    (update_production_record [newProductionRecord "M1" 9 "2024-01-01" 5 100]
          "M1" 9 "2024-01-01" 8 200).find? (bucketMatch "M1" "2024-01-01" 9)
        = some (applyRollupUpdate 9 8 200 (newProductionRecord "M1" 9 "2024-01-01" 5 100)) ∧
      (update_production_record [newProductionRecord "M1" 9 "2024-01-01" 5 100]
          "M1" 9 "2024-01-01" 8 200).length
        = [newProductionRecord "M1" 9 "2024-01-01" 5 100].length :=
  C5_rollup_overwrite_append.1 [newProductionRecord "M1" 9 "2024-01-01" 5 100]
    "M1" "2024-01-01" 9 8 200 (newProductionRecord "M1" 9 "2024-01-01" 5 100) (by decide)

/-- C6 counterexample: an unknown sensor type is skipped without raising
and without touching any state — but it is NOT logged: the `for` body has
no `else` branch, so zero log entries are emitted, not the one
warning-level entry the claim asserts. -/
theorem C6_cex_unknown_type_unlogged :
    read_sensors_one plcEnvOk true 5 tempMapping signalProcessorInit =
        (signalProcessorInit, [], []) ∧
      ¬((read_sensors_one plcEnvOk true 5 tempMapping signalProcessorInit).2.2.count
          LogLevel.warning = 1) := by
  constructor
  · decide
  · decide

/-- C6 amended: a sample whose sensor type is neither `"power"` nor
`"unit-cycle"` produces no exception, no state mutation, no stored
sample — and no log entry at all (it is skipped silently); the loop goes
on with the remaining mappings exactly as if the sample were absent. -/
theorem C6_amended_unknown_type_silent (plc : PlcEnv) (db_ok : Bool) (now : Nat)
    (mapping : Mapping) (proc : SignalProcessor) (rest : List Mapping)
    (h1 : mapping.sensorType ≠ "power") (h2 : mapping.sensorType ≠ "unit-cycle") :
    read_sensors_one plc db_ok now mapping proc = (proc, [], []) ∧
    read_sensors plc db_ok now (mapping :: rest) proc =
      read_sensors plc db_ok now rest proc := by
  have hone : read_sensors_one plc db_ok now mapping proc = (proc, [], []) := by
    simp [read_sensors_one, h1, h2]
  refine ⟨hone, ?_⟩
  simp [read_sensors, hone]

/-- Witness for C6's amended theorem at the temperature mapping. -/
theorem C6_amended_witness :
    read_sensors_one plcEnvOk true 5 tempMapping signalProcessorInit =
        (signalProcessorInit, [], []) ∧
      read_sensors plcEnvOk true 5 [tempMapping] signalProcessorInit =
        read_sensors plcEnvOk true 5 [] signalProcessorInit :=
  C6_amended_unknown_type_silent plcEnvOk true 5 tempMapping signalProcessorInit []
    (by decide) (by decide)

/-- With the PLC read raising (`db1 = none`), `read_digital_input` catches
the exception, logs an error and returns the default `False` — whatever
the pin. -/
theorem read_digital_input_fail (pin : String) :
    read_digital_input true none pin = (false, [LogLevel.error]) := by
  unfold read_digital_input
  simp only [Bool.not_true, Bool.false_eq_true, if_false]
  by_cases h : startsWithL pin.toList ("DQ.".toList)
  · rw [if_neg (by simpa using h)]
    cases digitsToNat? (takeUntilDot (afterFirstDot pin.toList)) with
    | none => rfl
    | some pn => rfl
  · rw [if_pos (by simpa using h)]

/-- C7 counterexample: when the PLC read fails, the code does NOT treat it
as "no sample this tick": `read_digital_input` swallows the exception and
returns `False`, and `read_sensors` then stores a `SignalSample` with
value 0 and feeds the processor with it.  Concretely, one sample is
stored (not zero) and the processor state is mutated. -/
theorem C7_cex_plc_failure_sample_stored :
    (read_sensors_one plcFailEnv true 7 cycleMapping signalProcessorInit).2.1 =
        [⟨"S2", "M2", 0, 7, "unit-cycle"⟩] ∧
      (read_sensors_one plcFailEnv true 7 cycleMapping signalProcessorInit).2.1 ≠ [] ∧
      (read_sensors_one plcFailEnv true 7 cycleMapping signalProcessorInit).1 ≠
        signalProcessorInit := by
  refine ⟨by decide, by decide, by decide⟩

/-- C7 amended: a PLC read failure is not fatal and never halts the loop —
but instead of skipping the sample, the failed read yields the default
value (`False` for digital, `0.0` for analog), which IS stored as a raw
sample and fed to the SignalProcessor, with one error-level log entry. -/
theorem C7_amended_plc_failure_default_sample (mapping : Mapping)
    (proc : SignalProcessor) (now : Nat) (db2 : Nat → Option Nat) (db1 : Option Nat)
    (hcyc : mapping.sensorType = "unit-cycle") (mp2 : Mapping)
    (hpow : mp2.sensorType = "power") :
    read_sensors_one ⟨true, none, db2⟩ true now mapping proc =
        (process_cycle_signal proc mapping.machineId false,
         [⟨mapping.sensorId, mapping.machineId, 0, now, "unit-cycle"⟩],
         [LogLevel.error]) ∧
      read_sensors_one ⟨true, db1, fun _ => none⟩ true now mp2 proc =
        (process_power_signal proc mp2.machineId 0,
         [⟨mp2.sensorId, mp2.machineId, 0, now, "power"⟩],
         [LogLevel.error]) := by
  constructor
  · simp [read_sensors_one, hcyc, read_digital_input_fail, store_signal_data]
  · simp [read_sensors_one, hpow, read_analog_input, store_signal_data]

/-- Witness for C7's amended theorem at concrete mappings. -/
theorem C7_amended_witness :
    read_sensors_one ⟨true, none, fun _ => none⟩ true 7 cycleMapping signalProcessorInit =
        (process_cycle_signal signalProcessorInit "M2" false,
         [⟨"S2", "M2", 0, 7, "unit-cycle"⟩], [LogLevel.error]) ∧
      read_sensors_one ⟨true, none, fun _ => none⟩ true 7 ⟨"S3", "M3", "power", "DQ.1"⟩
          signalProcessorInit =
        (process_power_signal signalProcessorInit "M3" 0,
         [⟨"S3", "M3", 0, 7, "power"⟩], [LogLevel.error]) := by
  have h := C7_amended_plc_failure_default_sample cycleMapping signalProcessorInit 7
    (fun _ => none) none (by decide) ⟨"S3", "M3", "power", "DQ.1"⟩ (by decide)
  exact h

/-- C8 counterexample: a failing store operation is NOT reported to the
caller: the Python function always falls off the end returning `None`,
so the caller-visible result of a failing rollup call carries no failure
information and is identical to that of a successful call. -/
theorem C8_cex_no_failure_result :
    (update_production_record_call true [] "M1" 9 "2024-01-01" 5 0).2.2.isSome = false ∧
      (update_production_record_call true [] "M1" 9 "2024-01-01" 5 0).2.2 =
        (update_production_record_call false [] "M1" 9 "2024-01-01" 5 0).2.2 := by
  decide

/-- C8 amended: a failing store operation is caught inside
`update_production_record`: the error is logged (not returned — the
caller gets `None` either way), the store is left unchanged, the rollup
driver completes without crashing, and the in-memory counters are
untouched (the rollup path never writes to the processor). -/
theorem C8_amended_store_error_swallowed (store : List ProductionRecord) (m : String)
    (hour : Fin 24) (date : String) (u : Int) (now : Nat) (mappings : List Mapping)
    (proc : SignalProcessor) (s : DaemonState) (storeFail : Bool) :
    update_production_record_call true store m hour date u now =
        (store, [LogLevel.error], none) ∧
      (update_production_records true mappings proc store date hour now).1 = store ∧
      (run_job storeFail mappings date hour now ScheduledJob.update_records s).1.processor
        = s.processor := by
  refine ⟨rfl, ?_, rfl⟩
  exact go_store_fail proc hour date now _ store []

/-- C9: the jobs registered at `initialize` run rollup BEFORE reset at
every hourly trigger: running the registered job list is exactly
"update the store from the PRE-reset processor, then reset" — and
consequently, for any machine with a positive snapshot and no existing
record, the hourly trigger persists the pre-reset count and only then
zeroes it, so no count is lost to the reset. -/
theorem C9_rollup_before_reset :
    (∀ (storeFail : Bool) (mappings : List Mapping) (date : String) (hour : Fin 24)
       (now : Nat) (s : DaemonState),
        run_pending storeFail mappings date hour now s =
          ({ processor := reset_hourly_counters s.processor,
             store := (update_production_records storeFail mappings s.processor s.store
                         date hour now).1 },
           (update_production_records storeFail mappings s.processor s.store date hour
               now).2 ++ [LogLevel.info])) ∧
    (∀ (mappings : List Mapping) (date : String) (hour : Fin 24) (now : Nat)
       (s : DaemonState) (m : String) (c : Nat),
        m ∈ mappings.map (fun mp => mp.machineId) →
        get_hourly_production s.processor m = c → 0 < c →
        (∀ r ∈ s.store, r.machineId ≠ m) →
        newProductionRecord m hour date (c : Int) now ∈
            (run_pending false mappings date hour now s).1.store ∧
          get_hourly_production (run_pending false mappings date hour now s).1.processor m
            = 0) := by
  have heq : ∀ (storeFail : Bool) (mappings : List Mapping) (date : String)
      (hour : Fin 24) (now : Nat) (s : DaemonState),
      run_pending storeFail mappings date hour now s =
        ({ processor := reset_hourly_counters s.processor,
           store := (update_production_records storeFail mappings s.processor s.store
                       date hour now).1 },
         (update_production_records storeFail mappings s.processor s.store date hour
             now).2 ++ [LogLevel.info]) := by
    intro storeFail mappings date hour now s
    rfl
  refine ⟨heq, ?_⟩
  intro mappings date hour now s m c hmem hc hpos habs
  rw [heq]
  constructor
  · have hmem' : m ∈ dedupKeepFirst (mappings.map (fun mp => mp.machineId)) :=
      (mem_dedupKeepFirst _ _).mpr hmem
    exact go_creates s.processor hour date now m c hc hpos _ s.store [] hmem'
      (nodup_dedupKeepFirst _) habs
  · simp [get_hourly_production, reset_hourly_counters, alookup]

/-- Witness for C9's second conjunct at a concrete hourly trigger. -/
theorem C9_witness :
    newProductionRecord "M1" 9 "2024-01-01" ((3 : Nat) : Int) 42 ∈
        (run_pending false [⟨"S1", "M1", "unit-cycle", "DQ.4"⟩] "2024-01-01" 9 42
          ⟨witnessProcessor, []⟩).1.store ∧
      get_hourly_production
        (run_pending false [⟨"S1", "M1", "unit-cycle", "DQ.4"⟩] "2024-01-01" 9 42
          ⟨witnessProcessor, []⟩).1.processor "M1" = 0 :=
  C9_rollup_before_reset.2 [⟨"S1", "M1", "unit-cycle", "DQ.4"⟩] "2024-01-01" 9 42
    ⟨witnessProcessor, []⟩ "M1" 3 (by decide) (by decide) (by decide)
    (by intro r hr; cases hr)

/-- C10 counterexample: for this present (well-formed JSON) config file,
`load_config` raises nothing — but the returned configuration has no
`interval_seconds` field under `"sampling"` (the section is still the
string), refuting "fields such as the sampling interval are always
present in the result". -/
theorem C10_cex_string_section_survives :
    hasSubKey (load_config (ConfigFile.parsed badConfig)) "sampling" "interval_seconds"
      = false := by
  decide

/-- Every section of the defaults merged onto a string top-level raises
(`TypeError` on assignment or on indexing), so the merge falls back to
the full defaults. -/
theorem mergeAll_str_error (s : String) (c : JVal) :
    mergeAll (JVal.str s) default_config_entries = Except.ok c → False := by
  intro h
  simp only [default_config_entries, mergeAll] at h
  cases hms : mergeSection (JVal.str s) "plc" (JVal.obj plcDefaults) with
  | ok c1 =>
    exact mergeSection_str_error "plc" s ("ip", JVal.str "192.168.1.11")
      [("rack", JVal.num 0), ("slot", JVal.num 1)] c1 hms
  | error e =>
    rw [hms] at h
    simp at h

/-- A numeric top-level raises on the very first membership test. -/
theorem mergeAll_num_error (n : Int) (c : JVal) :
    mergeAll (JVal.num n) default_config_entries = Except.ok c → False := by
  intro h
  simp only [default_config_entries, mergeAll] at h
  cases hms : mergeSection (JVal.num n) "plc" (JVal.obj plcDefaults) with
  | ok c1 => exact mergeSection_num_error "plc" n (JVal.obj plcDefaults) c1 hms
  | error e =>
    rw [hms] at h
    simp at h

/-- C10 amended: for every configuration file state, `load_config` returns
without raising (any exception along the way yields the full defaults),
the result contains every top-level default section key, and — whenever a
section of the result is a JSON object — every default sub-key of that
section is present in it.  (A present section of non-object type can
survive the merge unrepaired, see the counterexample, which is why the
sub-key guarantee is conditional on the section being an object.) -/
theorem C10_amended_load_config_defaults (f : ConfigFile) :
    configSectionFilled (load_config f) "plc" plcDefaults = true ∧
    configSectionFilled (load_config f) "mongodb" mongodbDefaults = true ∧
    configSectionFilled (load_config f) "sampling" samplingDefaults = true ∧
    configSectionFilled (load_config f) "logging" loggingDefaults = true := by
  have hdef : configSectionFilled default_config "plc" plcDefaults = true ∧
      configSectionFilled default_config "mongodb" mongodbDefaults = true ∧
      configSectionFilled default_config "sampling" samplingDefaults = true ∧
      configSectionFilled default_config "logging" loggingDefaults = true := by
    refine ⟨?_, ?_, ?_, ?_⟩ <;> decide
  cases f with
  | absent => exact hdef
  | unreadable => exact hdef
  | malformed => exact hdef
  | parsed cfg =>
    cases cfg with
    | str s =>
      have hload : load_config (ConfigFile.parsed (JVal.str s)) = default_config := by
        cases hm : mergeAll (JVal.str s) default_config_entries with
        | ok c => exact (mergeAll_str_error s c hm).elim
        | error e => simp [load_config, hm]
      rw [hload]
      exact hdef
    | num n =>
      have hload : load_config (ConfigFile.parsed (JVal.num n)) = default_config := by
        cases hm : mergeAll (JVal.num n) default_config_entries with
        | ok c => exact (mergeAll_num_error n c hm).elim
        | error e => simp [load_config, hm]
      rw [hload]
      exact hdef
    | obj kvs =>
      cases hm : mergeAll (JVal.obj kvs) default_config_entries with
      | error e =>
        have hload : load_config (ConfigFile.parsed (JVal.obj kvs)) = default_config := by
          simp [load_config, hm]
        rw [hload]
        exact hdef
      | ok c =>
        have hobj : ∀ e ∈ default_config_entries, ∃ subs, e.2 = JVal.obj subs := by
          intro e he
          simp only [default_config_entries, List.mem_cons, List.not_mem_nil,
            or_false] at he
          rcases he with h | h | h | h <;> subst h <;> exact ⟨_, rfl⟩
        have hnodup : (default_config_entries.map Prod.fst).Nodup := by decide
        obtain ⟨kvs', hc, _hframe, hfill⟩ :=
          mergeAll_obj default_config_entries kvs c hobj hnodup hm
        subst hc
        have hload : load_config (ConfigFile.parsed (JVal.obj kvs)) = JVal.obj kvs' := by
          simp [load_config, hm]
        rw [hload]
        refine ⟨?_, ?_, ?_, ?_⟩
        · exact hfill ("plc", JVal.obj plcDefaults)
            (by simp [default_config_entries]) plcDefaults rfl
        · exact hfill ("mongodb", JVal.obj mongodbDefaults)
            (by simp [default_config_entries]) mongodbDefaults rfl
        · exact hfill ("sampling", JVal.obj samplingDefaults)
            (by simp [default_config_entries]) samplingDefaults rfl
        · exact hfill ("logging", JVal.obj loggingDefaults)
            (by simp [default_config_entries]) loggingDefaults rfl

end SignalRecorder
